import Mathlib

/-!
Shallow embedding of `ml_toolkit`
(`src/data_setup.py`, `src/utils.py`).

The Python code performs filesystem and network I/O.  We model:
  * the filesystem as a record of existing directories (a list of paths)
    together with the regular files (an association list from path to byte
    content, bytes as `List Nat`);
  * the network as an oracle `net : String → List Nat` giving the response
    body of a GET of a URI, together with an explicit trace of the URIs
    actually fetched by a run;
  * zip decoding as an oracle `zipOf : List Nat → List (String × List Nat)`
    giving the archive member names and contents of a byte string;
  * Python exceptions as an `Except` result (`IsADirectoryError` raised by
    `open(p, "wb")` when `p` is an existing directory, `FileNotFoundError`
    raised by `zipfile.ZipFile` on a missing file, `AssertionError` raised
    by `assert`).
Paths are strings; `pathlib`'s `/` is modelled as joining with `"/"`.
-/

/-- Byte strings (file contents, HTTP bodies). -/
abbrev Bytes := List Nat

/-- Split a character list on `'/'` (the groups between the slashes;
`splitChars [] = [[]]`, matching `"".split("/") = [""]`). -/
def splitChars : List Char → List (List Char)
  | [] => [[]]
  | c :: cs =>
      let r := splitChars cs
      if c = '/' then [] :: r
      else match r with
        | [] => [[c]]
        | g :: gs => (c :: g) :: gs

/-- Split a path string into its `/`-separated components. -/
def splitOnSlash (s : String) : List String :=
  (splitChars s.data).map (fun l => String.mk l)

/-- Whether the first character list is an initial segment of the
second. -/
def startsWithChars : List Char → List Char → Bool
  | [], _ => true
  | _ :: _, [] => false
  | a :: as, b :: bs => a = b && startsWithChars as bs

/-- Lexicographic comparison of character lists (by code point, as
Python's string `<=`). -/
def charListLe : List Char → List Char → Bool
  | [], _ => true
  | _ :: _, [] => false
  | a :: as, b :: bs =>
      if a < b then true
      else if b < a then false
      else charListLe as bs

/-- Lexicographic `<=` on strings (Python's string comparison). -/
def strLe (a b : String) : Bool :=
  charListLe a.data b.data

/-- Python's `str.endswith(suf)`. -/
def strEndsWith (s suf : String) : Bool :=
  startsWithChars suf.data.reverse s.data.reverse

/-- Python exceptions that the modelled code can raise. -/
inductive PyErr where
  | isADirectoryError
  | fileNotFoundError
  | assertionError
deriving Repr, DecidableEq

/-- The filesystem: the set of existing directories and the regular files
with their contents.  A path is a directory iff it is in `dirs`; a path is a
regular file iff it has an entry in `files`. -/
structure FS where
  dirs : List String
  files : List (String × Bytes)
deriving Repr, DecidableEq

/-- `Path.is_dir()`. -/
def FS.isDir (fs : FS) (p : String) : Bool :=
  fs.dirs.contains p

/-- Content of the regular file at `p`, if one exists. -/
def FS.readFile (fs : FS) (p : String) : Option Bytes :=
  fs.files.lookup p

/-- Whether a regular file exists at `p`. -/
def FS.fileExists (fs : FS) (p : String) : Bool :=
  (fs.readFile p).isSome

/-- Replace (or create) the regular file at `p` with content `b`. -/
def FS.writeFile (fs : FS) (p : String) (b : Bytes) : FS :=
  { fs with files := (p, b) :: fs.files.filter (fun e => !(e.1 == p)) }

/-- `os.remove(p)`: delete the regular file at `p`. -/
def FS.removeFile (fs : FS) (p : String) : FS :=
  { fs with files := fs.files.filter (fun e => !(e.1 == p)) }

/-- `open(p, "wb")`: raises `IsADirectoryError` when `p` is an existing
directory, otherwise creates/truncates the regular file at `p`. -/
def FS.openWrite (fs : FS) (p : String) : Except PyErr FS :=
  if fs.isDir p then .error .isADirectoryError
  else .ok (fs.writeFile p [])

/-- All ancestors of a path (in `/`-separated form), the path itself
included: `ancestors "a/b/c" = ["a", "a/b", "a/b/c"]`. -/
def ancestors (p : String) : List String :=
  match splitOnSlash p with
  | [] => []
  | c :: cs =>
      (cs.foldl (fun (acc : List String × String) d =>
        let q := acc.2 ++ "/" ++ d
        (acc.1 ++ [q], q)) ([c], c)).1

/-- `Path(p).mkdir(parents=True, exist_ok=True)`: make `p` itself and all
its ancestors directories.  (`ancestors p` ends with `p` itself; `p` is
also placed at the head so that membership of the created directory is
immediate.) -/
def FS.mkdirParents (fs : FS) (p : String) : FS :=
  { fs with dirs := p :: (ancestors p ++ fs.dirs) }

/-- `Path(s).name`: the last `/`-separated segment of `s`. -/
def pathName (s : String) : String :=
  (splitOnSlash s).getLastD ""

/-- `zip_ref.extractall(target)`: write every archive member `(name, b)` to
`target/name`, in order. -/
def FS.extractEntries (fs : FS) (target : String)
    (entries : List (String × Bytes)) : FS :=
  entries.foldl (fun acc e => acc.writeFile (target ++ "/" ++ e.1) e.2) fs

/-- Outcome of running one of the effectful Python functions: the final
filesystem, the trace of URIs fetched over the network (in order), and the
returned value or the raised exception. -/
structure PyResult (α : Type) where
  fs : FS
  trace : List String
  result : Except PyErr α

/-- `data_setup.download_data` (src/data_setup.py, lines 17–36).
If `target_dir_pth` is not an existing directory, logs and returns.
Otherwise runs `open(target_dir_pth, "wb")` — note the path handed to
`open` is the directory itself — then `requests.get(data_source_pth)`
inside the `with` block, then writes the body. -/
def download_data (net : String → Bytes) (fs : FS)
    (target_dir_pth data_source_pth : String) : PyResult Unit :=
  if fs.isDir target_dir_pth = false then
    ⟨fs, [], .ok ()⟩
  else
    match fs.openWrite target_dir_pth with
    | .error e => ⟨fs, [], .error e⟩
    | .ok fs1 =>
        let body := net data_source_pth
        ⟨fs1.writeFile target_dir_pth body, [data_source_pth], .ok ()⟩

/-- The FIRST `data_setup.download_zip_data` definition
(src/data_setup.py, lines 38–57; shadowed in Python by the later one, so
given a distinct Lean name).  If `target_path` is not an existing
directory, logs and returns.  Otherwise opens the zip file at
`source_path` (raising `FileNotFoundError` if absent) and extracts it into
`target_path`.  The `remove_source` parameter is accepted but never
used. -/
def download_zip_data_v1 (zipOf : Bytes → List (String × Bytes)) (fs : FS)
    (source_path target_path : String) (remove_source : Bool) :
    PyResult Unit :=
  if fs.isDir target_path = false then
    ⟨fs, [], .ok ()⟩
  else
    match fs.readFile source_path with
    | none => ⟨fs, [], .error .fileNotFoundError⟩
    | some data => ⟨fs.extractEntries target_path (zipOf data), [], .ok ()⟩

/-- The SECOND (effective) `data_setup.download_zip_data`
(src/data_setup.py, lines 62–106).  Computes `image_path = "data"/destination`.
If it is already a directory, skips and returns it.  Otherwise creates it
(with parents), derives `target_file = Path(source).name`, opens
`"data"/target_file` for writing, GETs `source`, writes the body, extracts
the archive into `image_path`, removes the archive when `remove_source`,
and returns `image_path`. -/
def download_zip_data (net : String → Bytes)
    (zipOf : Bytes → List (String × Bytes)) (fs : FS)
    (source destination : String) (remove_source : Bool) :
    PyResult String :=
  let data_path := "data"
  let image_path := data_path ++ "/" ++ destination
  if fs.isDir image_path then
    ⟨fs, [], .ok image_path⟩
  else
    let fs1 := fs.mkdirParents image_path
    let target_file := pathName source
    let archive_path := data_path ++ "/" ++ target_file
    match fs1.openWrite archive_path with
    | .error e => ⟨fs1, [], .error e⟩
    | .ok fs2 =>
        let body := net source
        let fs3 := fs2.writeFile archive_path body
        match fs3.readFile archive_path with
        | none => ⟨fs3, [source], .error .fileNotFoundError⟩
        | some data =>
            let fs4 := fs3.extractEntries image_path (zipOf data)
            let fs5 := if remove_source then fs4.removeFile archive_path
                       else fs4
            ⟨fs5, [source], .ok image_path⟩

/-- Name of `p` as an immediate child entry of directory `d`: `some rest`
when `p = d ++ "/" ++ rest` with `rest` nonempty and slash-free. -/
def childName (d p : String) : Option String :=
  if startsWithChars (d ++ "/").data p.data then
    let rest := p.data.drop (d ++ "/").data.length
    if rest = [] ∨ rest.contains '/' then none else some (String.mk rest)
  else none

/-- The immediate subdirectory names of `d` (what
`entry.name for entry in os.scandir(d) if entry.is_dir()` yields), without
duplicates. -/
def FS.subdirNames (fs : FS) (d : String) : List String :=
  (fs.dirs.filterMap (childName d)).dedup

/-- Python's `sorted` on strings (lexicographic). -/
def sortStrings (l : List String) : List String :=
  List.insertionSort (fun a b => strLe a b = true) l

/-- The regular files lying under directory `d`, in sorted order (what
`torchvision`'s dataset builder walks). -/
def filesUnder (fs : FS) (d : String) : List String :=
  sortStrings (((fs.files.map Prod.fst).filter
    (fun p => startsWithChars (d ++ "/").data p.data)).dedup)

/-- A `torchvision.datasets.ImageFolder`: the sorted class names, the
samples as (file path, class index) pairs, and the transform applied to a
sample on access. -/
structure ImageFolderData where
  classes : List String
  samples : List (String × Nat)
  transform : Bytes → Bytes

/-- `datasets.ImageFolder(dir, transform=transform)`: classes are the
sorted immediate subdirectory names of `dir` (`find_classes`, which raises
`FileNotFoundError` when there are none); samples are the files under each
class directory, tagged with the class index. -/
def imageFolder (fs : FS) (dir : String) (transform : Bytes → Bytes) :
    Except PyErr ImageFolderData :=
  let classes := sortStrings (fs.subdirNames dir)
  if classes.isEmpty then .error .fileNotFoundError
  else .ok { classes := classes,
             samples := classes.enum.flatMap
               (fun ic => (filesUnder fs (dir ++ "/" ++ ic.2)).map
                 (fun f => (f, ic.1))),
             transform := transform }

/-- A `torch.utils.data.DataLoader` over a dataset of samples of type `α`,
recording the construction flags. -/
structure DataLoader (α : Type) where
  dataset : List α
  batch_size : Nat
  shuffle : Bool
  num_workers : Nat
  pin_memory : Bool
deriving Repr, DecidableEq

/-- Split a list into consecutive chunks of `bs` elements (the last chunk
may be shorter).  This is how a `DataLoader` with `drop_last=False` (the
default) batches an epoch's sample order. -/
def chunkList {α : Type} (bs : Nat) (l : List α) : List (List α) :=
  if h : bs = 0 then []
  else match l with
    | [] => []
    | x :: xs => (x :: xs).take bs :: chunkList bs ((x :: xs).drop bs)
termination_by l.length
decreasing_by simp; omega

/-- The sample orders a `DataLoader` may traverse in one pass (epoch): any
permutation of the dataset when `shuffle`, exactly the dataset order
otherwise. -/
def DataLoader.validOrder {α : Type} (ld : DataLoader α) (order : List α) :
    Prop :=
  if ld.shuffle then order.Perm ld.dataset else order = ld.dataset

/-- The batches yielded by one pass of a `DataLoader` traversing the
sample order `order`. -/
def DataLoader.passOn {α : Type} (ld : DataLoader α) (order : List α) :
    List (List α) :=
  chunkList ld.batch_size order

/-- The value returned by `create_dataloaders`. -/
structure DataloadersResult where
  train_dataloader : DataLoader (String × Nat)
  test_dataloader : DataLoader (String × Nat)
  class_names : List String
deriving Repr, DecidableEq

/-- `data_setup.create_dataloaders` (src/data_setup.py, lines 109–162).
Builds `ImageFolder` datasets for `train_dir` and `test_dir`, takes
`class_names` from the TRAIN dataset, and wraps both in `DataLoader`s:
the train loader with `shuffle=True`, the test loader with
`shuffle=False`, both with the given `batch_size` and `num_workers` and
`pin_memory=True`.  (`num_workers` defaults in Python to `os.cpu_count()`,
an ambient host value; it is an explicit argument here.) -/
def create_dataloaders (fs : FS) (train_dir test_dir : String)
    (transform : Bytes → Bytes) (batch_size num_workers : Nat) :
    Except PyErr DataloadersResult :=
  match imageFolder fs train_dir transform with
  | .error e => .error e
  | .ok train_data =>
      match imageFolder fs test_dir transform with
      | .error e => .error e
      | .ok test_data =>
          .ok ⟨⟨train_data.samples, batch_size, true, num_workers, true⟩,
               ⟨test_data.samples, batch_size, false, num_workers, true⟩,
               train_data.classes⟩

/-- `utils.save_model` (src/utils.py, lines 104–132).  First makes
`target_dir` (with parents), THEN asserts that `model_name` ends with
`".pth"` or `".pt"`, then writes the model state dict (a byte string
`stateDict` here) to `target_dir/model_name`. -/
def save_model (stateDict : Bytes) (fs : FS)
    (target_dir model_name : String) : PyResult Unit :=
  let fs1 := fs.mkdirParents target_dir
  if strEndsWith model_name ".pth" || strEndsWith model_name ".pt" then
    ⟨fs1.writeFile (target_dir ++ "/" ++ model_name) stateDict, [], .ok ()⟩
  else
    ⟨fs1, [], .error .assertionError⟩

/-! ### Basic lemmas about the filesystem model -/

theorem lookup_filter_ne {q p : String} (l : List (String × Bytes))
    (h : q ≠ p) :
    (l.filter (fun e => !(e.1 == p))).lookup q = l.lookup q := by
  induction l with
  | nil => rfl
  | cons e l ih =>
      by_cases hep : e.1 = p
      · have hq : (q == p) = false := by simpa using h
        simp [List.filter_cons, hep, List.lookup, hq, ih]
      · by_cases hqe : q = e.1
        · simp [List.filter_cons, hep, List.lookup, hqe]
        · have hq : (q == e.1) = false := by simp [hqe]
          simp [List.filter_cons, hep, List.lookup, hq, ih]

theorem lookup_filter_self (p : String) (l : List (String × Bytes)) :
    (l.filter (fun e => !(e.1 == p))).lookup p = none := by
  induction l with
  | nil => rfl
  | cons e l ih =>
      by_cases hep : e.1 = p
      · simp [List.filter_cons, hep, ih]
      · have hq : (p == e.1) = false := by
          simpa using Ne.symm hep
        simp [List.filter_cons, hep, List.lookup, hq, ih]

theorem FS.dirs_writeFile (fs : FS) (p : String) (b : Bytes) :
    (fs.writeFile p b).dirs = fs.dirs := rfl

theorem FS.dirs_removeFile (fs : FS) (p : String) :
    (fs.removeFile p).dirs = fs.dirs := rfl

theorem FS.files_mkdirParents (fs : FS) (p : String) :
    (fs.mkdirParents p).files = fs.files := rfl

theorem FS.readFile_writeFile_self (fs : FS) (p : String) (b : Bytes) :
    (fs.writeFile p b).readFile p = some b := by
  simp [FS.writeFile, FS.readFile, List.lookup]

theorem FS.readFile_writeFile_ne (fs : FS) {p q : String} (b : Bytes)
    (h : q ≠ p) :
    (fs.writeFile p b).readFile q = fs.readFile q := by
  have hq : (q == p) = false := by simp [h]
  simp [FS.writeFile, FS.readFile, List.lookup, hq, lookup_filter_ne _ h]

theorem FS.readFile_removeFile_self (fs : FS) (p : String) :
    (fs.removeFile p).readFile p = none := by
  simp [FS.removeFile, FS.readFile, lookup_filter_self]

theorem FS.readFile_removeFile_ne (fs : FS) {p q : String} (h : q ≠ p) :
    (fs.removeFile p).readFile q = fs.readFile q := by
  simp [FS.removeFile, FS.readFile, lookup_filter_ne _ h]

theorem FS.fileExists_removeFile_self (fs : FS) (p : String) :
    (fs.removeFile p).fileExists p = false := by
  simp [FS.fileExists, FS.readFile_removeFile_self]

theorem FS.fileExists_writeFile_mono (fs : FS) (p q : String) (b : Bytes)
    (h : fs.fileExists q = true) :
    (fs.writeFile p b).fileExists q = true := by
  by_cases hqp : q = p
  · subst hqp; simp [FS.fileExists, FS.readFile_writeFile_self]
  · simpa [FS.fileExists, FS.readFile_writeFile_ne _ _ hqp] using h

theorem FS.dirs_extractEntries (fs : FS) (t : String)
    (es : List (String × Bytes)) :
    (fs.extractEntries t es).dirs = fs.dirs := by
  induction es generalizing fs with
  | nil => rfl
  | cons e es ih =>
      show ((fs.writeFile (t ++ "/" ++ e.1) e.2).extractEntries t es).dirs
        = fs.dirs
      rw [ih]
      rfl

theorem FS.readFile_extractEntries_of_notMem (fs : FS) (t : String)
    (es : List (String × Bytes)) (p : String)
    (h : ∀ e ∈ es, t ++ "/" ++ e.1 ≠ p) :
    (fs.extractEntries t es).readFile p = fs.readFile p := by
  induction es generalizing fs with
  | nil => rfl
  | cons e es ih =>
      show ((fs.writeFile (t ++ "/" ++ e.1) e.2).extractEntries t es).readFile p
        = fs.readFile p
      rw [ih _ (fun x hx => h x (List.mem_cons_of_mem _ hx))]
      exact FS.readFile_writeFile_ne _ _ (Ne.symm (h e (List.mem_cons_self _ _)))

theorem FS.fileExists_extractEntries_mono (fs : FS) (t : String)
    (es : List (String × Bytes)) (p : String)
    (h : fs.fileExists p = true) :
    (fs.extractEntries t es).fileExists p = true := by
  induction es generalizing fs with
  | nil => exact h
  | cons e es ih =>
      show ((fs.writeFile (t ++ "/" ++ e.1) e.2).extractEntries t es).fileExists p
        = true
      exact ih _ (FS.fileExists_writeFile_mono _ _ _ _ h)

theorem FS.readFile_extractEntries_mem (fs : FS) (t : String)
    (es : List (String × Bytes)) (e : String × Bytes)
    (hnd : (es.map (fun x => t ++ "/" ++ x.1)).Nodup) (he : e ∈ es) :
    (fs.extractEntries t es).readFile (t ++ "/" ++ e.1) = some e.2 := by
  induction es generalizing fs with
  | nil => cases he
  | cons f es ih =>
      show ((fs.writeFile (t ++ "/" ++ f.1) f.2).extractEntries t es).readFile
        (t ++ "/" ++ e.1) = some e.2
      rcases List.mem_cons.mp he with rfl | hmem
      · have hhead : (t ++ "/" ++ e.1) ∉ es.map (fun x => t ++ "/" ++ x.1) :=
          (List.nodup_cons.mp hnd).1
        have hnot : ∀ x ∈ es, t ++ "/" ++ x.1 ≠ t ++ "/" ++ e.1 := by
          intro x hx hc
          exact hhead (hc ▸ List.mem_map_of_mem _ hx)
        rw [FS.readFile_extractEntries_of_notMem _ _ _ _ hnot]
        exact FS.readFile_writeFile_self _ _ _
      · exact ih _ (List.nodup_cons.mp hnd).2 hmem

theorem FS.isDir_mkdirParents_self (fs : FS) (p : String) :
    (fs.mkdirParents p).isDir p = true := by
  simp [FS.mkdirParents, FS.isDir]

theorem charListLe_total : ∀ a b : List Char,
    charListLe a b = true ∨ charListLe b a = true
  | [], _ => Or.inl rfl
  | _ :: _, [] => Or.inr rfl
  | a :: as, b :: bs => by
      by_cases hab : a < b
      · left; simp [charListLe, hab]
      · by_cases hba : b < a
        · right; simp [charListLe, hba]
        · rcases charListLe_total as bs with h | h
          · left; simp [charListLe, hab, hba, h]
          · right; simp [charListLe, hba, hab, h]

theorem charListLe_trans : ∀ a b c : List Char,
    charListLe a b = true → charListLe b c = true → charListLe a c = true
  | [], _, _ => fun _ _ => rfl
  | _ :: _, [], _ => by simp [charListLe]
  | _ :: _, _ :: _, [] => by intro _ h2; simp [charListLe] at h2
  | a :: as, b :: bs, c :: cs => by
      intro h1 h2
      rcases lt_trichotomy a b with hab | hab | hab
      · rcases lt_trichotomy b c with hbc | hbc | hbc
        · simp [charListLe, lt_trans hab hbc]
        · subst hbc; simp [charListLe, hab]
        · simp [charListLe, lt_asymm hbc, hbc] at h2
      · subst hab
        simp only [charListLe, lt_irrefl, if_false] at h1
        rcases lt_trichotomy a c with hac | hac | hac
        · simp [charListLe, hac]
        · subst hac
          simp only [charListLe, lt_irrefl, if_false] at h2 ⊢
          exact charListLe_trans as bs cs h1 h2
        · simp [charListLe, lt_asymm hac, hac] at h2
      · simp [charListLe, lt_asymm hab, hab] at h1

/-! ### C1–C3: the acquirer's early-exit and error behaviour -/

/-- C1: when the target directory `data/<destination>` already exists,
`download_zip_data` (the later, effective definition) performs zero
network calls, leaves the filesystem unchanged, returns the existing path
unchanged, and calling it twice with the same arguments is the same as
calling it once. -/
theorem download_zip_data_existing_skip (net : String → Bytes)
    (zipOf : Bytes → List (String × Bytes)) (fs : FS)
    (source destination : String) (remove_source : Bool)
    (h : fs.isDir ("data/" ++ destination) = true) :
    download_zip_data net zipOf fs source destination remove_source
      = ⟨fs, [], .ok ("data/" ++ destination)⟩ ∧
    download_zip_data net zipOf
        (download_zip_data net zipOf fs source destination remove_source).fs
        source destination remove_source
      = download_zip_data net zipOf fs source destination remove_source := by
  have h1 : download_zip_data net zipOf fs source destination remove_source
      = ⟨fs, [], .ok ("data/" ++ destination)⟩ := by
    unfold download_zip_data
    simp [h]
  refine ⟨h1, ?_⟩
  rw [h1]
  exact h1

/-- C1 witness: a concrete filesystem where `data/pizza` exists. -/
theorem download_zip_data_existing_skip_witness :
    (FS.mk ["data", "data/pizza"] []).isDir ("data/" ++ "pizza") = true ∧
    download_zip_data (fun _ => [1]) (fun _ => []) ⟨["data", "data/pizza"], []⟩
        "http://host/pizza.zip" "pizza" true
      = ⟨⟨["data", "data/pizza"], []⟩, [], .ok ("data/" ++ "pizza")⟩ :=
  ⟨by decide,
   (download_zip_data_existing_skip (fun _ => [1]) (fun _ => [])
     ⟨["data", "data/pizza"], []⟩ "http://host/pizza.zip" "pizza" true
     (by decide)).1⟩

/-- C2: when `target_dir_pth` is not an existing directory,
`download_data` returns early with no network call and no filesystem
change (a log line, not an exception). -/
theorem download_data_missing_dir (net : String → Bytes) (fs : FS)
    (target_dir_pth data_source_pth : String)
    (h : fs.isDir target_dir_pth = false) :
    download_data net fs target_dir_pth data_source_pth = ⟨fs, [], .ok ()⟩ := by
  unfold download_data
  simp [h]

/-- C2 witness: a concrete filesystem with no directories. -/
theorem download_data_missing_dir_witness :
    (FS.mk [] []).isDir "missing" = false ∧
    download_data (fun _ => [1]) ⟨[], []⟩ "missing" "http://host/labels.csv"
      = ⟨⟨[], []⟩, [], .ok ()⟩ :=
  ⟨by decide,
   download_data_missing_dir (fun _ => [1]) ⟨[], []⟩ "missing"
     "http://host/labels.csv" (by decide)⟩

/-- C3: when `target_dir_pth` IS an existing directory, `download_data`
does NOT write the response body: `open(target_dir_pth, "wb")` is handed
the directory path itself and raises `IsADirectoryError` before
`requests.get` ever runs, so the call raises with zero network calls and
an unchanged filesystem. -/
theorem download_data_existing_dir_raises (net : String → Bytes) (fs : FS)
    (target_dir_pth data_source_pth : String)
    (h : fs.isDir target_dir_pth = true) :
    download_data net fs target_dir_pth data_source_pth
      = ⟨fs, [], .error .isADirectoryError⟩ := by
  unfold download_data
  simp [h, FS.openWrite]

/-- C3 witness: the concrete failing input — directory `d` exists, the
call raises `IsADirectoryError` with an empty network trace. -/
theorem download_data_existing_dir_raises_witness :
    (FS.mk ["d"] []).isDir "d" = true ∧
    download_data (fun _ => [1]) ⟨["d"], []⟩ "d" "http://host/labels.csv"
      = ⟨⟨["d"], []⟩, [], .error .isADirectoryError⟩ :=
  ⟨by decide,
   download_data_existing_dir_raises (fun _ => [1]) ⟨["d"], []⟩ "d"
     "http://host/labels.csv" (by decide)⟩

theorem FS.isDir_writeFile (fs : FS) (p q : String) (b : Bytes) :
    (fs.writeFile p b).isDir q = fs.isDir q := rfl

theorem FS.isDir_removeFile (fs : FS) (p q : String) :
    (fs.removeFile p).isDir q = fs.isDir q := rfl

theorem FS.isDir_extractEntries (fs : FS) (t : String)
    (es : List (String × Bytes)) (q : String) :
    (fs.extractEntries t es).isDir q = fs.isDir q := by
  unfold FS.isDir
  rw [FS.dirs_extractEntries]

/-! ### C4, C6: the fresh-download branch of `download_zip_data` -/

/-- C4: when `data/<destination>` does not yet exist, `download_zip_data`
creates it (recursively), derives the local filename as the last path
segment of `source`, performs exactly one GET of `source` writing the body
to `data/<filename>`, extracts the archive's full contents into
`data/<destination>`, and returns `data/<destination>`.  (The hypotheses
ask that `data/<filename>` is not itself a directory after the mkdir —
otherwise Python's `open` raises — and that the archive's entry paths are
distinct and distinct from the archive file's own path.) -/
theorem download_zip_data_fresh_download (net : String → Bytes)
    (zipOf : Bytes → List (String × Bytes)) (fs : FS)
    (source destination : String) (remove_source : Bool)
    (h1 : fs.isDir ("data/" ++ destination) = false)
    (h2 : (fs.mkdirParents ("data/" ++ destination)).isDir
        ("data/" ++ pathName source) = false)
    (hnd : ((zipOf (net source)).map
        (fun x => "data/" ++ destination ++ "/" ++ x.1)).Nodup)
    (hne : ∀ e ∈ zipOf (net source),
        "data/" ++ destination ++ "/" ++ e.1 ≠ "data/" ++ pathName source) :
    (download_zip_data net zipOf fs source destination remove_source).result
        = .ok ("data/" ++ destination) ∧
    (download_zip_data net zipOf fs source destination remove_source).trace
        = [source] ∧
    (download_zip_data net zipOf fs source destination remove_source).fs.isDir
        ("data/" ++ destination) = true ∧
    ∀ e ∈ zipOf (net source),
      (download_zip_data net zipOf fs source destination
          remove_source).fs.readFile ("data/" ++ destination ++ "/" ++ e.1)
        = some e.2 := by
  have hb := FS.readFile_writeFile_self
      ((fs.mkdirParents ("data/" ++ destination)).writeFile
        ("data/" ++ pathName source) [])
      ("data/" ++ pathName source) (net source)
  have hrun : download_zip_data net zipOf fs source destination remove_source
      = ⟨if remove_source
           then ((((fs.mkdirParents ("data/" ++ destination)).writeFile
                    ("data/" ++ pathName source) []).writeFile
                    ("data/" ++ pathName source) (net source)).extractEntries
                    ("data/" ++ destination) (zipOf (net source))).removeFile
                    ("data/" ++ pathName source)
           else (((fs.mkdirParents ("data/" ++ destination)).writeFile
                    ("data/" ++ pathName source) []).writeFile
                    ("data/" ++ pathName source) (net source)).extractEntries
                    ("data/" ++ destination) (zipOf (net source)),
         [source], .ok ("data/" ++ destination)⟩ := by
    unfold download_zip_data
    simp [h1, FS.openWrite, h2, hb]
  rw [hrun]
  refine ⟨rfl, rfl, ?_, ?_⟩
  · cases remove_source with
    | true =>
        simp only [if_pos rfl]
        simp [FS.isDir_removeFile, FS.isDir_extractEntries, FS.isDir_writeFile,
          FS.isDir_mkdirParents_self]
    | false =>
        simp [FS.isDir_extractEntries, FS.isDir_writeFile,
          FS.isDir_mkdirParents_self]
  · intro e he
    cases remove_source with
    | true =>
        simp only [eq_self_iff_true, if_true]
        rw [FS.readFile_removeFile_ne _ (hne e he)]
        exact FS.readFile_extractEntries_mem _ _ _ e hnd he
    | false =>
        simp only [Bool.false_eq_true, if_false]
        exact FS.readFile_extractEntries_mem _ _ _ e hnd he

/-- A concrete network oracle for witnesses. -/
def netA : String → Bytes := fun _ => [9, 8]

/-- A concrete zip-decoding oracle for witnesses: every archive holds two
class folders with one image each. -/
def zipA : Bytes → List (String × Bytes) :=
  fun _ => [("steak/img1.jpg", [1]), ("sushi/img2.jpg", [2])]

/-- C4 witness: a fresh download of `pizza` into an empty filesystem. -/
theorem download_zip_data_fresh_download_witness :
    (download_zip_data netA zipA ⟨[], []⟩ "http://host/pizza.zip" "pizza"
        true).result = .ok ("data/" ++ "pizza") ∧
    (download_zip_data netA zipA ⟨[], []⟩ "http://host/pizza.zip" "pizza"
        true).trace = ["http://host/pizza.zip"] ∧
    (download_zip_data netA zipA ⟨[], []⟩ "http://host/pizza.zip" "pizza"
        true).fs.isDir ("data/" ++ "pizza") = true := by
  have H := download_zip_data_fresh_download netA zipA ⟨[], []⟩
    "http://host/pizza.zip" "pizza" true (by decide) (by decide) (by decide)
    (by decide)
  exact ⟨H.1, H.2.1, H.2.2.1⟩

/-- C6: after the download branch, the archive file `data/<filename>` is
gone when `remove_source = true` and still holds the downloaded body when
`remove_source = false`; every other path (file contents and directories)
is identical between the two runs. -/
theorem download_zip_data_remove_source_effect (net : String → Bytes)
    (zipOf : Bytes → List (String × Bytes)) (fs : FS)
    (source destination : String)
    (h1 : fs.isDir ("data/" ++ destination) = false)
    (h2 : (fs.mkdirParents ("data/" ++ destination)).isDir
        ("data/" ++ pathName source) = false)
    (hne : ∀ e ∈ zipOf (net source),
        "data/" ++ destination ++ "/" ++ e.1 ≠ "data/" ++ pathName source) :
    (download_zip_data net zipOf fs source destination true).fs.fileExists
        ("data/" ++ pathName source) = false ∧
    (download_zip_data net zipOf fs source destination false).fs.readFile
        ("data/" ++ pathName source) = some (net source) ∧
    (∀ p, p ≠ "data/" ++ pathName source →
      (download_zip_data net zipOf fs source destination true).fs.readFile p
        = (download_zip_data net zipOf fs source destination
            false).fs.readFile p) ∧
    (download_zip_data net zipOf fs source destination true).fs.dirs
      = (download_zip_data net zipOf fs source destination false).fs.dirs := by
  have hb := FS.readFile_writeFile_self
      ((fs.mkdirParents ("data/" ++ destination)).writeFile
        ("data/" ++ pathName source) [])
      ("data/" ++ pathName source) (net source)
  have hrunT : download_zip_data net zipOf fs source destination true
      = ⟨((((fs.mkdirParents ("data/" ++ destination)).writeFile
            ("data/" ++ pathName source) []).writeFile
            ("data/" ++ pathName source) (net source)).extractEntries
            ("data/" ++ destination) (zipOf (net source))).removeFile
            ("data/" ++ pathName source),
         [source], .ok ("data/" ++ destination)⟩ := by
    unfold download_zip_data
    simp [h1, FS.openWrite, h2, hb]
  have hrunF : download_zip_data net zipOf fs source destination false
      = ⟨(((fs.mkdirParents ("data/" ++ destination)).writeFile
            ("data/" ++ pathName source) []).writeFile
            ("data/" ++ pathName source) (net source)).extractEntries
            ("data/" ++ destination) (zipOf (net source)),
         [source], .ok ("data/" ++ destination)⟩ := by
    unfold download_zip_data
    simp [h1, FS.openWrite, h2, hb]
  rw [hrunT, hrunF]
  refine ⟨FS.fileExists_removeFile_self _ _, ?_, ?_, ?_⟩
  · rw [FS.readFile_extractEntries_of_notMem _ _ _ _ hne]
    exact hb
  · intro p hp
    exact FS.readFile_removeFile_ne _ hp
  · exact FS.dirs_removeFile _ _

/-- C6 witness: with `remove_source = true` the archive `data/sushi.zip`
is gone; with `false` it still holds the downloaded body. -/
theorem download_zip_data_remove_source_effect_witness :
    (download_zip_data netA zipA ⟨[], []⟩ "http://host/sushi.zip" "sushi"
        true).fs.fileExists ("data/" ++ pathName "http://host/sushi.zip")
      = false ∧
    (download_zip_data netA zipA ⟨[], []⟩ "http://host/sushi.zip" "sushi"
        false).fs.readFile ("data/" ++ pathName "http://host/sushi.zip")
      = some (netA "http://host/sushi.zip") := by
  have H := download_zip_data_remove_source_effect netA zipA ⟨[], []⟩
    "http://host/sushi.zip" "sushi" (by decide) (by decide) (by decide)
  exact ⟨H.1, H.2.1⟩

/-! ### C9: the first (shadowed) `download_zip_data` definition -/

/-- C9: in the earlier `download_zip_data` definition the `remove_source`
parameter has no effect (the archive at `source_path` survives the call
under either value), the call performs no network access, a missing
`target_path` means an early return with the filesystem unchanged, and an
existing `target_path` means the call only extracts the archive at
`source_path` into `target_path`. -/
theorem download_zip_data_v1_props (zipOf : Bytes → List (String × Bytes))
    (fs : FS) (source_path target_path : String) (rs : Bool) :
    (download_zip_data_v1 zipOf fs source_path target_path rs).trace = [] ∧
    download_zip_data_v1 zipOf fs source_path target_path true
      = download_zip_data_v1 zipOf fs source_path target_path false ∧
    (fs.fileExists source_path = true →
      (download_zip_data_v1 zipOf fs source_path target_path rs).fs.fileExists
        source_path = true) ∧
    (fs.isDir target_path = false →
      download_zip_data_v1 zipOf fs source_path target_path rs
        = ⟨fs, [], .ok ()⟩) ∧
    (fs.isDir target_path = true →
      ∀ data, fs.readFile source_path = some data →
        download_zip_data_v1 zipOf fs source_path target_path rs
          = ⟨fs.extractEntries target_path (zipOf data), [], .ok ()⟩) := by
  refine ⟨?_, rfl, ?_, ?_, ?_⟩
  · unfold download_zip_data_v1
    by_cases h : fs.isDir target_path = false
    · simp [h]
    · cases hr : fs.readFile source_path with
      | none => simp [h, hr]
      | some d => simp [h, hr]
  · intro hex
    unfold download_zip_data_v1
    by_cases h : fs.isDir target_path = false
    · simp [h, hex]
    · cases hr : fs.readFile source_path with
      | none => simp [h, hr, hex]
      | some d =>
          simp only [h, if_false, hr]
          exact FS.fileExists_extractEntries_mono _ _ _ _ hex
  · intro h
    unfold download_zip_data_v1
    simp [h]
  · intro h data hr
    unfold download_zip_data_v1
    simp [h, hr]

/-- C9 witness: a concrete run — the target directory exists, the archive
is extracted, the archive file survives. -/
theorem download_zip_data_v1_props_witness :
    download_zip_data_v1 zipA ⟨["t"], [("a.zip", [5])]⟩ "a.zip" "t" true
      = ⟨(FS.mk ["t"] [("a.zip", [5])]).extractEntries "t" (zipA [5]),
         [], .ok ()⟩ ∧
    (download_zip_data_v1 zipA ⟨["t"], [("a.zip", [5])]⟩ "a.zip" "t"
        true).fs.fileExists "a.zip" = true := by
  have H := download_zip_data_v1_props zipA ⟨["t"], [("a.zip", [5])]⟩
    "a.zip" "t" true
  exact ⟨H.2.2.2.2 (by decide) [5] (by decide), H.2.2.1 (by decide)⟩

/-! ### C10: `save_model` -/

/-- C10 counterexample: for `model_name = "weights.txt"` the assertion
fires, but the run does NOT leave the filesystem unchanged — the `mkdir`
call precedes the `assert`, so the target directory has already been
created when the assertion raises. -/
theorem save_model_invalid_name_modifies_fs :
    (save_model [1] ⟨[], []⟩ "models" "weights.txt").result
      = .error .assertionError ∧
    (save_model [1] ⟨[], []⟩ "models" "weights.txt").fs ≠ (⟨[], []⟩ : FS) := by
  refine ⟨rfl, ?_⟩
  decide

/-- C10 (amended): `save_model` raises `AssertionError` iff `model_name`
ends with neither `".pth"` nor `".pt"`; in that case no file is written,
but the target directory has already been created (the `mkdir` precedes
the assertion); with a valid extension the call creates `target_dir`
recursively and writes the state dict to `target_dir/model_name`. -/
theorem save_model_spec (stateDict : Bytes) (fs : FS)
    (target_dir model_name : String) :
    (save_model stateDict fs target_dir model_name).trace = [] ∧
    ((save_model stateDict fs target_dir model_name).result
        = .error .assertionError
      ↔ (strEndsWith model_name ".pth" = false ∧
         strEndsWith model_name ".pt" = false)) ∧
    (strEndsWith model_name ".pth" = false ∧
        strEndsWith model_name ".pt" = false →
      (save_model stateDict fs target_dir model_name).fs
          = fs.mkdirParents target_dir ∧
      (save_model stateDict fs target_dir model_name).fs.files = fs.files) ∧
    (strEndsWith model_name ".pth" = true ∨
        strEndsWith model_name ".pt" = true →
      (save_model stateDict fs target_dir model_name).result = .ok () ∧
      (save_model stateDict fs target_dir model_name).fs
          = (fs.mkdirParents target_dir).writeFile
              (target_dir ++ "/" ++ model_name) stateDict ∧
      (save_model stateDict fs target_dir model_name).fs.isDir target_dir
          = true ∧
      (save_model stateDict fs target_dir model_name).fs.readFile
          (target_dir ++ "/" ++ model_name) = some stateDict) := by
  rcases Bool.eq_false_or_eq_true (strEndsWith model_name ".pth") with hp | hp
  · have hrun : save_model stateDict fs target_dir model_name
        = ⟨(fs.mkdirParents target_dir).writeFile
            (target_dir ++ "/" ++ model_name) stateDict, [], .ok ()⟩ := by
      unfold save_model
      simp [hp]
    rw [hrun]
    refine ⟨rfl, by simp [hp], ?_, ?_⟩
    · rintro ⟨h1, h2⟩
      rw [h1] at hp; cases hp
    · intro hor
      refine ⟨rfl, rfl, ?_, FS.readFile_writeFile_self _ _ _⟩
      rw [FS.isDir_writeFile]
      exact FS.isDir_mkdirParents_self _ _
  · rcases Bool.eq_false_or_eq_true (strEndsWith model_name ".pt") with ht | ht
    · have hrun : save_model stateDict fs target_dir model_name
          = ⟨(fs.mkdirParents target_dir).writeFile
              (target_dir ++ "/" ++ model_name) stateDict, [], .ok ()⟩ := by
        unfold save_model
        simp [ht]
      rw [hrun]
      refine ⟨rfl, by simp [ht], ?_, ?_⟩
      · rintro ⟨h1, h2⟩
        rw [h2] at ht; cases ht
      · intro hor
        refine ⟨rfl, rfl, ?_, FS.readFile_writeFile_self _ _ _⟩
        rw [FS.isDir_writeFile]
        exact FS.isDir_mkdirParents_self _ _
    · have hrun : save_model stateDict fs target_dir model_name
          = ⟨fs.mkdirParents target_dir, [], .error .assertionError⟩ := by
        unfold save_model
        simp [hp, ht]
      rw [hrun]
      refine ⟨rfl, by simp [hp, ht], fun _ => ⟨rfl, rfl⟩, ?_⟩
      intro hor
      rcases hor with h | h
      · rw [h] at hp; cases hp
      · rw [h] at ht; cases ht

/-- C10 witness: a valid `.pth` name is written under the created target
directory. -/
theorem save_model_spec_witness :
    (save_model [3] ⟨[], []⟩ "models" "m.pth").result = .ok () ∧
    (save_model [3] ⟨[], []⟩ "models" "m.pth").fs.readFile
        ("models" ++ "/" ++ "m.pth") = some [3] := by
  have H := save_model_spec [3] ⟨[], []⟩ "models" "m.pth"
  have HV := H.2.2.2 (Or.inl (by decide))
  exact ⟨HV.1, HV.2.2.2⟩

/-! ### C5, C7, C8: the loader factory -/

theorem sortStrings_sorted (l : List String) :
    (sortStrings l).Sorted (fun a b => strLe a b = true) := by
  haveI : IsTotal String (fun a b => strLe a b = true) :=
    ⟨fun a b => charListLe_total a.data b.data⟩
  haveI : IsTrans String (fun a b => strLe a b = true) :=
    ⟨fun a b c => charListLe_trans a.data b.data c.data⟩
  exact List.sorted_insertionSort _ l

theorem sortStrings_perm (l : List String) : (sortStrings l).Perm l :=
  List.perm_insertionSort _ l

theorem sortStrings_length (l : List String) :
    (sortStrings l).length = l.length :=
  (sortStrings_perm l).length_eq

theorem imageFolder_ok_classes (fs : FS) (dir : String)
    (transform : Bytes → Bytes) (td : ImageFolderData)
    (h : imageFolder fs dir transform = .ok td) :
    td.classes = sortStrings (fs.subdirNames dir) := by
  unfold imageFolder at h
  dsimp only at h
  split at h
  · cases h
  · cases h
    rfl

theorem create_dataloaders_ok_inv (fs : FS) (train_dir test_dir : String)
    (transform : Bytes → Bytes) (batch_size num_workers : Nat)
    (r : DataloadersResult)
    (h : create_dataloaders fs train_dir test_dir transform batch_size
        num_workers = .ok r) :
    r.class_names = sortStrings (fs.subdirNames train_dir) ∧
    r.train_dataloader.batch_size = batch_size ∧
    r.train_dataloader.shuffle = true ∧
    r.test_dataloader.batch_size = batch_size ∧
    r.test_dataloader.shuffle = false := by
  unfold create_dataloaders at h
  cases htr : imageFolder fs train_dir transform with
  | error e => rw [htr] at h; cases h
  | ok td =>
      rw [htr] at h
      cases hte : imageFolder fs test_dir transform with
      | error e => rw [hte] at h; cases h
      | ok sd =>
          rw [hte] at h
          cases h
          exact ⟨imageFolder_ok_classes fs train_dir transform td htr,
            rfl, rfl, rfl, rfl⟩

theorem chunkList_nil {α : Type} (bs : Nat) :
    chunkList bs ([] : List α) = [] := by
  unfold chunkList
  split <;> rfl

theorem chunkList_step {α : Type} (bs : Nat) (l : List α) (hbs : bs ≠ 0)
    (hl : l ≠ []) :
    chunkList bs l = l.take bs :: chunkList bs (l.drop bs) := by
  cases l with
  | nil => cases hl rfl
  | cons x xs =>
      conv_lhs => rw [chunkList]
      rw [dif_neg hbs]

theorem chunkList_sizes_17 {α : Type} (l : List α) (h : l.length = 17) :
    (chunkList 8 l).map List.length = [8, 8, 1] := by
  have h8 : (8 : Nat) ≠ 0 := by decide
  have hne1 : l ≠ [] := by
    intro he; rw [he] at h; cases h
  rw [chunkList_step 8 l h8 hne1]
  have hd1 : (l.drop 8).length = 9 := by simp [List.length_drop, h]
  have hne2 : l.drop 8 ≠ [] := by
    intro he; rw [he] at hd1; cases hd1
  rw [chunkList_step 8 _ h8 hne2]
  have hd2 : ((l.drop 8).drop 8).length = 1 := by simp [List.length_drop, h]
  have hne3 : (l.drop 8).drop 8 ≠ [] := by
    intro he; rw [he] at hd2; cases hd2
  rw [chunkList_step 8 _ h8 hne3]
  have hd3 : (((l.drop 8).drop 8).drop 8).length = 0 := by
    simp [List.length_drop, h]
  rw [List.length_eq_zero.mp hd3, chunkList_nil]
  simp [List.length_take, List.length_drop, h]

/-- C5: `class_names` is the lexicographically sorted list of the train
directory's immediate subdirectory names — sorted, a permutation of those
names, of the same length — and the test directory has no effect on it
(two runs over different test directories agree on `class_names`). -/
theorem create_dataloaders_class_names_from_train (fs : FS)
    (train_dir test_dir1 test_dir2 : String) (t1 t2 : Bytes → Bytes)
    (bs1 nw1 bs2 nw2 : Nat) (r1 r2 : DataloadersResult)
    (h1 : create_dataloaders fs train_dir test_dir1 t1 bs1 nw1 = .ok r1)
    (h2 : create_dataloaders fs train_dir test_dir2 t2 bs2 nw2 = .ok r2) :
    r1.class_names = sortStrings (fs.subdirNames train_dir) ∧
    r1.class_names.Sorted (fun a b => strLe a b = true) ∧
    r1.class_names.Perm (fs.subdirNames train_dir) ∧
    r1.class_names.length = (fs.subdirNames train_dir).length ∧
    r1.class_names = r2.class_names := by
  obtain ⟨hc1, -, -, -, -⟩ :=
    create_dataloaders_ok_inv _ _ _ _ _ _ _ h1
  obtain ⟨hc2, -, -, -, -⟩ :=
    create_dataloaders_ok_inv _ _ _ _ _ _ _ h2
  refine ⟨hc1, ?_, ?_, ?_, hc1.trans hc2.symm⟩
  · rw [hc1]; exact sortStrings_sorted _
  · rw [hc1]; exact sortStrings_perm _
  · rw [hc1]; exact sortStrings_length _

/-- A concrete filesystem for the loader-factory witnesses: the train
directory has two class folders, the two test directories have one class
folder each. -/
def fsB : FS :=
  ⟨["train", "train/classA", "train/classB", "test1", "test1/classA",
    "test2", "test2/classB"],
   [("train/classA/a.jpg", [1]), ("train/classB/b.jpg", [2]),
    ("test1/classA/a.jpg", [1]), ("test2/classB/b.jpg", [2])]⟩

/-- A placeholder loader used only as the `getD` default below. -/
def emptyLoader : DataLoader (String × Nat) := ⟨[], 0, false, 0, false⟩

/-- The result of `create_dataloaders` on `fsB` with test directory
`test1`. -/
def rB1 : DataloadersResult :=
  (create_dataloaders fsB "train" "test1" (fun b => b) 4 0).toOption.getD
    ⟨emptyLoader, emptyLoader, []⟩

/-- The result of `create_dataloaders` on `fsB` with test directory
`test2`. -/
def rB2 : DataloadersResult :=
  (create_dataloaders fsB "train" "test2" (fun b => b) 4 0).toOption.getD
    ⟨emptyLoader, emptyLoader, []⟩

/-- C5 witness: two classes in train, one (different) class in each test
directory; `class_names` is the sorted train listing in both runs. -/
theorem create_dataloaders_class_names_from_train_witness :
    rB1.class_names = sortStrings (fsB.subdirNames "train") ∧
    rB1.class_names = rB2.class_names := by
  have H := create_dataloaders_class_names_from_train fsB "train" "test1"
    "test2" (fun b => b) (fun b => b) 4 0 4 0 rB1 rB2 (by rfl) (by rfl)
  exact ⟨H.1, H.2.2.2.2⟩

/-- C7: with `batch_size = 8` and a train dataset of 17 samples, any pass
of the train producer (any shuffled order, since the train loader is
constructed with shuffling) yields exactly 3 batches of sizes 8, 8, 1 — the
final partial batch is kept. -/
theorem create_dataloaders_train_batches (fs : FS)
    (train_dir test_dir : String) (transform : Bytes → Bytes)
    (num_workers : Nat) (r : DataloadersResult) (order : List (String × Nat))
    (h : create_dataloaders fs train_dir test_dir transform 8 num_workers
        = .ok r)
    (hlen : r.train_dataloader.dataset.length = 17)
    (ho : r.train_dataloader.validOrder order) :
    (r.train_dataloader.passOn order).map List.length = [8, 8, 1] := by
  obtain ⟨-, hbs, hsh, -, -⟩ :=
    create_dataloaders_ok_inv _ _ _ _ _ _ _ h
  unfold DataLoader.validOrder at ho
  rw [hsh] at ho
  simp only [eq_self_iff_true, if_true] at ho
  have hol : order.length = 17 := ho.length_eq.trans hlen
  unfold DataLoader.passOn
  rw [hbs]
  exact chunkList_sizes_17 order hol

/-- A concrete filesystem for the C7 witness: one train class with 17
image files, one test class with one file. -/
def fsC : FS :=
  ⟨["tr", "tr/c", "te", "te/c"],
   [("tr/c/f01.jpg", []), ("tr/c/f02.jpg", []), ("tr/c/f03.jpg", []),
    ("tr/c/f04.jpg", []), ("tr/c/f05.jpg", []), ("tr/c/f06.jpg", []),
    ("tr/c/f07.jpg", []), ("tr/c/f08.jpg", []), ("tr/c/f09.jpg", []),
    ("tr/c/f10.jpg", []), ("tr/c/f11.jpg", []), ("tr/c/f12.jpg", []),
    ("tr/c/f13.jpg", []), ("tr/c/f14.jpg", []), ("tr/c/f15.jpg", []),
    ("tr/c/f16.jpg", []), ("tr/c/f17.jpg", []),
    ("te/c/g01.jpg", [])]⟩

/-- The result of `create_dataloaders` on `fsC` with `batch_size = 8`. -/
def rC : DataloadersResult :=
  (create_dataloaders fsC "tr" "te" (fun b => b) 8 0).toOption.getD
    ⟨emptyLoader, emptyLoader, []⟩

/-- C7 witness: the concrete 17-sample train set batched by 8 (traversed
in dataset order, a valid shuffled order). -/
theorem create_dataloaders_train_batches_witness :
    (rC.train_dataloader.passOn rC.train_dataloader.dataset).map List.length
      = [8, 8, 1] := by
  refine create_dataloaders_train_batches fsC "tr" "te" (fun b => b) 0 rC
    rC.train_dataloader.dataset (by rfl) (by decide) ?_
  unfold DataLoader.validOrder
  split
  · exact List.Perm.refl _
  · rfl

/-- C8: the test producer is constructed without shuffling (the train
producer with shuffling), so any two valid passes over the test producer
traverse the same sample order and yield identical batch sequences. -/
theorem create_dataloaders_test_deterministic (fs : FS)
    (train_dir test_dir : String) (transform : Bytes → Bytes)
    (batch_size num_workers : Nat) (r : DataloadersResult)
    (o1 o2 : List (String × Nat))
    (h : create_dataloaders fs train_dir test_dir transform batch_size
        num_workers = .ok r)
    (h1 : r.test_dataloader.validOrder o1)
    (h2 : r.test_dataloader.validOrder o2) :
    r.test_dataloader.shuffle = false ∧
    r.train_dataloader.shuffle = true ∧
    r.test_dataloader.passOn o1 = r.test_dataloader.passOn o2 := by
  obtain ⟨-, -, hts, -, hsh⟩ :=
    create_dataloaders_ok_inv _ _ _ _ _ _ _ h
  refine ⟨hsh, hts, ?_⟩
  unfold DataLoader.validOrder at h1 h2
  rw [hsh] at h1 h2
  simp only [Bool.false_eq_true, if_false] at h1 h2
  rw [h1, h2]

/-- C8 witness: on `fsB` the test loader is unshuffled, the train loader
shuffled, and two passes in the (only valid) dataset order agree. -/
theorem create_dataloaders_test_deterministic_witness :
    rB1.test_dataloader.shuffle = false ∧
    rB1.train_dataloader.shuffle = true ∧
    rB1.test_dataloader.passOn rB1.test_dataloader.dataset
      = rB1.test_dataloader.passOn rB1.test_dataloader.dataset := by
  have hv : rB1.test_dataloader.validOrder rB1.test_dataloader.dataset := by
    unfold DataLoader.validOrder
    split
    · exact List.Perm.refl _
    · rfl
  exact create_dataloaders_test_deterministic fsB "train" "test1"
    (fun b => b) 4 0 rB1 _ _ (by rfl) hv hv
